import Mathlib

/-!
Verification of the near-ft-transfers queue and executor.

Shallow embedding of the SQLite-backed transfer queue (src/queue, the
version with memo / has_storage_deposit / stalling, i.e. the class whose
methods are push, peek, createSignedTransaction, markBatchSuccess,
markItemStalled, unstallItem, recoverFailedBatch, recover,
hasPendingOrProcessing) and of the batch-construction and failure-dispatch
logic of the Executor (src/executor/index.ts).

Representation choices:
- A table is a list of rows in rowid (insertion) order; AUTOINCREMENT is an
  explicit next-id counter.  SQL UPDATE ... WHERE is List.map with a row
  function, DELETE is List.filter, SELECT ... LIMIT 1 without ORDER BY is
  List.find? in scan order.
- amount columns hold decimal strings of non-negative integers and all
  arithmetic on them goes through JavaScript BigInt, which is exact on such
  strings; the embedding stores the numeric value as Nat.  The string level
  is kept at the enqueue boundary (isValidAmount, strToNat below).
- SQLite booleans (0/1 columns is_stalled, has_storage_deposit) are Bool.
-/

namespace NearFT

/-- QueueStatus from src/types.ts. -/
inductive QueueStatus
  | pending
  | processing
  | success
  | failed
deriving DecidableEq

/-- A row of the queue table (QueueItem in src/types.ts). -/
structure QueueItem where
  id : Nat
  receiver_account_id : String
  amount : Nat
  memo : Option String
  created_at : Nat
  updated_at : Nat
  retry_count : Nat
  error_message : Option String
  batch_id : Option Nat
  is_stalled : Bool
  has_storage_deposit : Bool
deriving DecidableEq

/-- A row of the batch_transactions table. -/
structure BatchTx where
  id : Nat
  tx_hash : String
  signed_tx : Option String
  status : QueueStatus
  created_at : Nat
  updated_at : Nat
deriving DecidableEq

/-- The database: both tables plus the AUTOINCREMENT counters. -/
structure Store where
  queue : List QueueItem
  batch_transactions : List BatchTx
  next_queue_id : Nat
  next_batch_id : Nat
deriving DecidableEq

/-- QueueOptions from src/queue: mergeExistingAccounts defaults to true,
defaultHasStorageDeposit to false. -/
structure QueueOptions where
  mergeExistingAccounts : Bool
  defaultHasStorageDeposit : Bool
deriving DecidableEq

/-- A transfer request as it reaches Queue.push (receiver, numeric value of
the amount string, optional memo, optional has_storage_deposit flag). -/
structure TransferRequest where
  receiver_account_id : String
  amount : Nat
  memo : Option String
  has_storage_deposit : Option Bool
deriving DecidableEq

/-- The JavaScript expression transfer.memo || null: an absent or empty
memo string is stored as NULL. -/
def memoOrNull (memo : Option String) : Option String :=
  match memo with
  | some m => if m = "" then none else some m
  | none => none

/-- The coalescing lookup in Queue.push: SELECT id, amount FROM queue WHERE
receiver_account_id = ? AND batch_id IS NULL LIMIT 1.  Note that the query
has no is_stalled condition. -/
def findMergeTarget (s : Store) (receiver : String) : Option QueueItem :=
  s.queue.find? (fun it => it.receiver_account_id == receiver && it.batch_id.isNone)

/-- The merge arm of Queue.push: UPDATE queue SET amount = ?, memo = ?,
has_storage_deposit = ?, updated_at = ? WHERE id = ?, the new amount being
the BigInt sum of the stored and the incoming amount; returns the merged
row id. -/
def pushMergeInto (opts : QueueOptions) (s : Store) (transfer : TransferRequest) (now : Nat)
    (existingId : Nat) : Store × Nat :=
  ({ s with queue := s.queue.map (fun it =>
      if it.id == existingId then
        { it with amount := it.amount + transfer.amount,
                  memo := memoOrNull transfer.memo,
                  has_storage_deposit := transfer.has_storage_deposit.getD
                    opts.defaultHasStorageDeposit,
                  updated_at := now }
      else it) },
   existingId)

/-- The insert arm of Queue.push: INSERT a fresh row with the schema
defaults retry_count 0, error_message NULL, batch_id NULL, is_stalled 0;
returns last_insert_rowid. -/
def pushInsertNew (opts : QueueOptions) (s : Store) (transfer : TransferRequest) (now : Nat) :
    Store × Nat :=
  ({ s with
      queue := s.queue ++
        [{ id := s.next_queue_id,
           receiver_account_id := transfer.receiver_account_id,
           amount := transfer.amount,
           memo := memoOrNull transfer.memo,
           created_at := now,
           updated_at := now,
           retry_count := 0,
           error_message := none,
           batch_id := none,
           is_stalled := false,
           has_storage_deposit := transfer.has_storage_deposit.getD
             opts.defaultHasStorageDeposit }],
      next_queue_id := s.next_queue_id + 1 },
   s.next_queue_id)

/-- Queue.push.  With mergeExistingAccounts on, merge into the first
batch_id-NULL row for the receiver when one exists; in every other case
insert a fresh row. -/
def push (opts : QueueOptions) (s : Store) (transfer : TransferRequest) (now : Nat) :
    Store × Nat :=
  if opts.mergeExistingAccounts then
    match findMergeTarget s transfer.receiver_account_id with
    | some existing => pushMergeInto opts s transfer now existing.id
    | none => pushInsertNew opts s transfer now
  else pushInsertNew opts s transfer now

/-- Queue.peek: SELECT * FROM queue WHERE batch_id IS NULL AND
is_stalled = 0 ORDER BY id ASC LIMIT ?.  Rows are kept in id order. -/
def peek (s : Store) (limit : Nat) : List QueueItem :=
  (s.queue.filter (fun it => it.batch_id.isNone && !it.is_stalled)).take limit

/-- Queue.peek as a store operation: the method runs a single SELECT and
emits an event, so the store is returned unchanged. -/
def peekOp (s : Store) (limit : Nat) : List QueueItem × Store :=
  (peek s limit, s)

/-- Queue.createSignedTransaction: insert a processing Batch carrying the
signed blob, then set batch_id on every queue row whose id is in queueIds;
both in one transaction.  Returns the fresh batch id. -/
def createSignedTransaction (s : Store) (txHash signedTx : String) (queueIds : List Nat)
    (now : Nat) : Store × Nat :=
  let batchId := s.next_batch_id
  ({ s with
      batch_transactions := s.batch_transactions ++
        [{ id := batchId,
           tx_hash := txHash,
           signed_tx := some signedTx,
           status := QueueStatus.processing,
           created_at := now,
           updated_at := now }],
      next_batch_id := batchId + 1,
      queue := s.queue.map (fun it =>
        if queueIds.contains it.id then
          { it with batch_id := some batchId, updated_at := now }
        else it) },
   batchId)

/-- Queue.markBatchSuccess: set the Batch to success with the chain tx
hash and a NULL blob, and set has_storage_deposit = 1 on every row of the
batch. -/
def markBatchSuccess (s : Store) (batchId : Nat) (txHash : String) (now : Nat) : Store :=
  { s with
      batch_transactions := s.batch_transactions.map (fun bt =>
        if bt.id == batchId then
          { bt with status := QueueStatus.success,
                    tx_hash := txHash,
                    signed_tx := none,
                    updated_at := now }
        else bt),
      queue := s.queue.map (fun it =>
        if it.batch_id == some batchId then
          { it with has_storage_deposit := true }
        else it) }

/-- Queue.markItemStalled: UPDATE queue SET is_stalled = 1,
error_message = ?, updated_at = ? WHERE id = ?. -/
def markItemStalled (s : Store) (itemId : Nat) (errorMessage : String) (now : Nat) : Store :=
  { s with queue := s.queue.map (fun it =>
      if it.id == itemId then
        { it with is_stalled := true, error_message := some errorMessage, updated_at := now }
      else it) }

/-- Queue.unstallItem: no-op returning false unless the item exists and is
stalled; otherwise clear is_stalled and batch_id. -/
def unstallItem (s : Store) (itemId : Nat) (now : Nat) : Store × Bool :=
  match s.queue.find? (fun it => it.id == itemId) with
  | none => (s, false)
  | some item =>
      if item.is_stalled then
        ({ s with queue := s.queue.map (fun it =>
            if it.id == itemId then
              { it with is_stalled := false, batch_id := none, updated_at := now }
            else it) },
         true)
      else (s, false)

/-- JavaScript truthiness of the optional errorMessage argument in
recoverFailedBatch: undefined and the empty string are falsy. -/
def isTruthy (errorMessage : Option String) : Bool :=
  match errorMessage with
  | some m => m != ""
  | none => false

/-- Row effect of UPDATE queue SET error_message = ?, updated_at = ?
WHERE batch_id = ? in recoverFailedBatch. -/
def rowSetError (batchId : Nat) (errorMessage : Option String) (now : Nat)
    (it : QueueItem) : QueueItem :=
  if it.batch_id == some batchId then
    { it with error_message := errorMessage, updated_at := now }
  else it

/-- Row effect of UPDATE queue SET batch_id = NULL,
retry_count = retry_count + 1, updated_at = ? WHERE batch_id = ? in
recoverFailedBatch. -/
def rowReset (batchId : Nat) (now : Nat) (it : QueueItem) : QueueItem :=
  if it.batch_id == some batchId then
    { it with batch_id := none, retry_count := it.retry_count + 1, updated_at := now }
  else it

/-- Row effect of UPDATE queue SET is_stalled = 1 WHERE batch_id IS NULL
AND retry_count > ? in recoverFailedBatch (no updated_at change in the
source statement). -/
def rowSweep (maxRetries : Nat) (it : QueueItem) : QueueItem :=
  if it.batch_id.isNone && decide (maxRetries < it.retry_count) then
    { it with is_stalled := true }
  else it

/-- Queue.recoverFailedBatch, step by step as in the source transaction:
delete the Batch row; if errorMessage is truthy set error_message on the
rows of the batch; clear batch_id and increment retry_count on the rows of
the batch; finally, if maxRetries was supplied, UPDATE queue SET
is_stalled = 1 WHERE batch_id IS NULL AND retry_count > maxRetries (note:
this last sweep ranges over the whole table, not only the batch). -/
def recoverFailedBatch (s : Store) (batchId : Nat) (errorMessage : Option String)
    (maxRetries : Option Nat) (now : Nat) : Store :=
  let s1 := { s with
      batch_transactions := s.batch_transactions.filter (fun bt => !(bt.id == batchId)) }
  let s2 := if isTruthy errorMessage then
      { s1 with queue := s1.queue.map (rowSetError batchId errorMessage now) }
    else s1
  let s3 := { s2 with queue := s2.queue.map (rowReset batchId now) }
  match maxRetries with
  | some m => { s3 with queue := s3.queue.map (rowSweep m) }
  | none => s3

/-- Queue.recover: clear batch_id on rows whose batch is pending or
processing, then delete every non-success Batch. -/
def recover (s : Store) (now : Nat) : Store :=
  let live := s.batch_transactions.filter (fun bt =>
    bt.status == QueueStatus.pending || bt.status == QueueStatus.processing)
  { s with
      queue := s.queue.map (fun it =>
        match it.batch_id with
        | some b => if live.any (fun bt => bt.id == b) then
            { it with batch_id := none, updated_at := now }
          else it
        | none => it),
      batch_transactions := s.batch_transactions.filter (fun bt =>
        bt.status == QueueStatus.success) }

/-- One row of the LEFT JOIN in Queue.hasPendingOrProcessing counts when
q.batch_id IS NULL OR bt.status = processing (bt the batch row joined on
q.batch_id; absent join partner gives a NULL status, which never equals
processing). -/
def itemHasWork (s : Store) (it : QueueItem) : Bool :=
  match it.batch_id with
  | none => true
  | some b =>
      match s.batch_transactions.find? (fun bt => bt.id == b) with
      | some bt => bt.status == QueueStatus.processing
      | none => false

/-- Queue.hasPendingOrProcessing: the join count is positive. -/
def hasPendingOrProcessing (s : Store) : Bool :=
  s.queue.any (itemHasWork s)

/-- The immediate-resolution test of Executor.waitUntilIdle
(src/executor/index.ts line 180): resolve right away exactly when
hasPendingOrProcessing is false. -/
def waitUntilIdleResolvesNow (s : Store) : Bool :=
  !(hasPendingOrProcessing s)

/-- Queue.getById: SELECT * FROM queue WHERE id = ?. -/
def getById (s : Store) (id : Nat) : Option QueueItem :=
  s.queue.find? (fun it => it.id == id)

/-- The amount validation of TransferRequestSchema (src/types.ts line 5):
the JavaScript regex test of a string against anchored one-or-more ASCII
digits, with no multiline flag. -/
def isValidAmount (amount : String) : Bool :=
  amount != "" && amount.toList.all Char.isDigit

/-- Numeric value of a decimal digit string, as computed exactly by
JavaScript BigInt on strings accepted by isValidAmount. -/
def strToNat (s : String) : Nat :=
  s.toList.foldl (fun n c => n * 10 + (c.toNat - 48)) 0

/-- Error kinds reported by enqueue. -/
inductive EnqueueError
  | InvalidAmount
deriving DecidableEq

/-- The enqueue operation of the system: schema validation of the amount
string (TransferRequestSchema, src/types.ts) followed by Queue.push; an
invalid amount is rejected before any store access. -/
def enqueue (opts : QueueOptions) (s : Store) (receiver amount : String)
    (memo : Option String) (hsd : Option Bool) (now : Nat) :
    Except EnqueueError (Store × Nat) :=
  if isValidAmount amount then
    Except.ok (push opts s
      { receiver_account_id := receiver,
        amount := strToNat amount,
        memo := memo,
        has_storage_deposit := hsd } now)
  else
    Except.error EnqueueError.InvalidAmount

/-- The MAX_ACTIONS constant of Executor.processBatch. -/
def maxActionsPerTransaction : Nat := 100

/-- Action cost of one Item in Executor.processBatch: 1 action when
has_storage_deposit, else 2 (storage_deposit plus ft_transfer). -/
def actionsNeeded (it : QueueItem) : Nat :=
  if it.has_storage_deposit then 1 else 2

/-- The budget-fit loop of Executor.processBatch: accept items in order
while the running action count stays within MAX_ACTIONS, and break at the
first item that would exceed it. -/
def budgetFitLoop : List QueueItem → Nat → List QueueItem
  | [], _ => []
  | it :: rest, actionCount =>
      let needed := actionsNeeded it
      if actionCount + needed ≤ maxActionsPerTransaction then
        it :: budgetFitLoop rest (actionCount + needed)
      else []

/-- The itemsToProcess list built by Executor.processBatch. -/
def itemsToProcess (items : List QueueItem) : List QueueItem :=
  budgetFitLoop items 0

/-- Total action cost of a list of items. -/
def totalActions (l : List QueueItem) : Nat :=
  (l.map actionsNeeded).sum

/-- The two NEAR action descriptors built by the Executor. -/
inductive NearAction
  | storage_deposit (account_id : String) (registration_only : Bool)
  | ft_transfer (receiver_id : String) (amount : Nat) (memo : Option String)
deriving DecidableEq

/-- Executor.createActionsForItem: prepend a storage_deposit registration
when the item lacks one, then the ft_transfer action. -/
def createActionsForItem (receiverId : String) (amount : Nat) (hasStorageDeposit : Bool)
    (memo : Option String) : List NearAction :=
  if hasStorageDeposit then
    [NearAction.ft_transfer receiverId amount memo]
  else
    [NearAction.storage_deposit receiverId true,
     NearAction.ft_transfer receiverId amount memo]

/-- The action list of one batch: Executor.processBatch flat-maps
createActionsForItem over itemsToProcess. -/
def batchActions (items : List QueueItem) : List NearAction :=
  (itemsToProcess items).flatMap (fun it =>
    createActionsForItem it.receiver_account_id it.amount it.has_storage_deposit it.memo)

/-- The ActionError-with-index branch of Executor.validateTransactionResult
(src/executor/index.ts lines 339-360): stall items[actionIndex] with the
JSON text of the error kind, then recoverFailedBatch with no error message
and with the configured maxRetries.  An out-of-range index would throw in
the source (non-null assertion); here it leaves the store unchanged, and
every theorem below assumes the index is in range. -/
def handleActionErrorIndexed (s : Store) (items : List QueueItem) (actionIndex : Nat)
    (errorMessage : String) (batchId maxRetries now : Nat) : Store :=
  match items.get? actionIndex with
  | some item =>
      recoverFailedBatch (markItemStalled s item.id errorMessage now)
        batchId none (some maxRetries) now
  | none => s

/-- Queue operations for the whole-trace invariant (claim C7): push,
createSignedTransaction (attachBatch), markBatchSuccess, recoverFailedBatch,
markItemStalled, unstallItem, recover. -/
inductive QOp
  | push (receiver : String) (amount : Nat) (memo : Option String)
      (hsd : Option Bool) (now : Nat)
  | createSignedTransaction (txHash signedTx : String) (queueIds : List Nat) (now : Nat)
  | markBatchSuccess (batchId : Nat) (txHash : String) (now : Nat)
  | recoverFailedBatch (batchId : Nat) (errorMessage : Option String)
      (maxRetries : Option Nat) (now : Nat)
  | markItemStalled (itemId : Nat) (errorMessage : String) (now : Nat)
  | unstallItem (itemId : Nat) (now : Nat)
  | recover (now : Nat)
deriving DecidableEq

/-- Apply one queue operation to the store. -/
def applyOp (opts : QueueOptions) (s : Store) : QOp → Store
  | QOp.push r a m h now => (push opts s ⟨r, a, m, h⟩ now).1
  | QOp.createSignedTransaction th tx ids now => (createSignedTransaction s th tx ids now).1
  | QOp.markBatchSuccess b h now => markBatchSuccess s b h now
  | QOp.recoverFailedBatch b em mr now => recoverFailedBatch s b em mr now
  | QOp.markItemStalled i em now => markItemStalled s i em now
  | QOp.unstallItem i now => (unstallItem s i now).1
  | QOp.recover now => recover s now

/-- The empty database created by initSchema (AUTOINCREMENT starts at 1). -/
def initialStore : Store :=
  { queue := [], batch_transactions := [], next_queue_id := 1, next_batch_id := 1 }

/-- Run a sequence of queue operations from a store. -/
def applyOps (opts : QueueOptions) (s : Store) (ops : List QOp) : Store :=
  ops.foldl (applyOp opts) s

/-! Helper lemmas about find? over row maps and about the push branches. -/

lemma push_eq_merge (opts : QueueOptions) (s : Store) (transfer : TransferRequest) (now : Nat)
    (ex : QueueItem) (hm : opts.mergeExistingAccounts = true)
    (hfind : findMergeTarget s transfer.receiver_account_id = some ex) :
    push opts s transfer now = pushMergeInto opts s transfer now ex.id := by
  unfold push
  rw [hm]
  simp only [if_true]
  split
  · rename_i existing heq
    rw [hfind] at heq
    injection heq with h2
    rw [h2]
  · rename_i heq
    rw [hfind] at heq
    cases heq

lemma push_eq_insert_of_none (opts : QueueOptions) (s : Store) (transfer : TransferRequest)
    (now : Nat) (hfind : findMergeTarget s transfer.receiver_account_id = none) :
    push opts s transfer now = pushInsertNew opts s transfer now := by
  unfold push
  by_cases hm : opts.mergeExistingAccounts = true
  · rw [hm]
    simp only [if_true]
    split
    · rename_i existing heq
      rw [hfind] at heq
      cases heq
    · rfl
  · have hm2 : opts.mergeExistingAccounts = false := by simpa using hm
    simp [hm2]

lemma push_eq_insert_of_nomerge (opts : QueueOptions) (s : Store) (transfer : TransferRequest)
    (now : Nat) (hm : opts.mergeExistingAccounts = false) :
    push opts s transfer now = pushInsertNew opts s transfer now := by
  unfold push
  simp [hm]

lemma find?_id_map (l : List QueueItem) (g : QueueItem → QueueItem)
    (hg : ∀ it, (g it).id = it.id) (x : Nat) :
    (l.map g).find? (fun it => it.id == x) = (l.find? (fun it => it.id == x)).map g := by
  rw [List.find?_map]
  have hpred : ((fun it : QueueItem => it.id == x) ∘ g) = (fun it : QueueItem => it.id == x) := by
    funext it
    simp [Function.comp, hg]
  rw [hpred]

lemma rowSetError_id (b : Nat) (em : Option String) (now : Nat) (it : QueueItem) :
    (rowSetError b em now it).id = it.id := by
  unfold rowSetError
  split <;> rfl

lemma rowReset_id (b now : Nat) (it : QueueItem) :
    (rowReset b now it).id = it.id := by
  unfold rowReset
  split <;> rfl

lemma rowSweep_id (m : Nat) (it : QueueItem) :
    (rowSweep m it).id = it.id := by
  unfold rowSweep
  split <;> rfl

/-- The per-row effect of recoverFailedBatch on the queue table: the
error-message update (when truthy), then the reset, then the retry-limit
sweep (when maxRetries is given). -/
def rfbRow (batchId : Nat) (errorMessage : Option String) (maxRetries : Option Nat)
    (now : Nat) (it : QueueItem) : QueueItem :=
  let it1 := if isTruthy errorMessage then rowSetError batchId errorMessage now it else it
  let it2 := rowReset batchId now it1
  match maxRetries with
  | some m => rowSweep m it2
  | none => it2

lemma getById_markItemStalled (s : Store) (itemId : Nat) (em : String) (now x : Nat) :
    getById (markItemStalled s itemId em now) x =
      (getById s x).map (fun it =>
        if it.id == itemId then
          { it with is_stalled := true, error_message := some em, updated_at := now }
        else it) :=
  find?_id_map s.queue _ (by intro it; split <;> rfl) x

lemma getById_createSignedTransaction (s : Store) (th tx : String) (ids : List Nat)
    (now x : Nat) :
    getById (createSignedTransaction s th tx ids now).1 x =
      (getById s x).map (fun it =>
        if ids.contains it.id then
          { it with batch_id := some s.next_batch_id, updated_at := now }
        else it) :=
  find?_id_map s.queue _ (by intro it; split <;> rfl) x

lemma getById_recoverFailedBatch (s : Store) (b : Nat) (em : Option String)
    (mr : Option Nat) (now x : Nat) :
    getById (recoverFailedBatch s b em mr now) x =
      (getById s x).map (rfbRow b em mr now) := by
  by_cases hem : isTruthy em = true
  · cases mr with
    | some m =>
        have hq : getById (recoverFailedBatch s b em (some m) now) x =
            ((((s.queue.map (rowSetError b em now)).map (rowReset b now)).map
              (rowSweep m)).find? (fun it => it.id == x)) := by
          unfold recoverFailedBatch getById
          rw [hem]
          simp only [if_true]
        rw [hq, find?_id_map _ _ (rowSweep_id m) x, find?_id_map _ _ (rowReset_id b now) x,
          find?_id_map _ _ (rowSetError_id b em now) x,
          show s.queue.find? (fun it => it.id == x) = getById s x from rfl]
        cases hx : getById s x with
        | none => rfl
        | some r =>
            simp only [Option.map]
            unfold rfbRow
            rw [hem]
            simp only [if_true]
    | none =>
        have hq : getById (recoverFailedBatch s b em none now) x =
            (((s.queue.map (rowSetError b em now)).map (rowReset b now)).find?
              (fun it => it.id == x)) := by
          unfold recoverFailedBatch getById
          rw [hem]
          simp only [if_true]
        rw [hq, find?_id_map _ _ (rowReset_id b now) x,
          find?_id_map _ _ (rowSetError_id b em now) x,
          show s.queue.find? (fun it => it.id == x) = getById s x from rfl]
        cases hx : getById s x with
        | none => rfl
        | some r =>
            simp only [Option.map]
            unfold rfbRow
            rw [hem]
            simp only [if_true]
  · have hem2 : isTruthy em = false := by simpa using hem
    cases mr with
    | some m =>
        have hq : getById (recoverFailedBatch s b em (some m) now) x =
            (((s.queue.map (rowReset b now)).map (rowSweep m)).find?
              (fun it => it.id == x)) := by
          unfold recoverFailedBatch getById
          rw [hem2]
          simp only [Bool.false_eq_true, if_false]
        rw [hq, find?_id_map _ _ (rowSweep_id m) x, find?_id_map _ _ (rowReset_id b now) x,
          show s.queue.find? (fun it => it.id == x) = getById s x from rfl]
        cases hx : getById s x with
        | none => rfl
        | some r =>
            simp only [Option.map]
            unfold rfbRow
            rw [hem2]
            simp only [Bool.false_eq_true, if_false]
    | none =>
        have hq : getById (recoverFailedBatch s b em none now) x =
            ((s.queue.map (rowReset b now)).find? (fun it => it.id == x)) := by
          unfold recoverFailedBatch getById
          rw [hem2]
          simp only [Bool.false_eq_true, if_false]
        rw [hq, find?_id_map _ _ (rowReset_id b now) x,
          show s.queue.find? (fun it => it.id == x) = getById s x from rfl]
        cases hx : getById s x with
        | none => rfl
        | some r =>
            simp only [Option.map]
            unfold rfbRow
            rw [hem2]
            simp only [Bool.false_eq_true, if_false]

lemma budgetFitLoop_take (items : List QueueItem) (c : Nat) :
    ∃ rest, budgetFitLoop items c ++ rest = items := by
  induction items generalizing c with
  | nil => exact ⟨[], rfl⟩
  | cons it rest ih =>
      by_cases h : c + actionsNeeded it ≤ maxActionsPerTransaction
      · obtain ⟨r2, hr2⟩ := ih (c + actionsNeeded it)
        refine ⟨r2, ?_⟩
        simp only [budgetFitLoop, h, if_pos]
        simpa using hr2
      · exact ⟨it :: rest, by simp [budgetFitLoop, h]⟩

lemma budgetFitLoop_cost (items : List QueueItem) (c : Nat) :
    totalActions (budgetFitLoop items c) + c ≤ maxActionsPerTransaction ∨
      budgetFitLoop items c = [] := by
  induction items generalizing c with
  | nil => exact Or.inr rfl
  | cons it rest ih =>
      by_cases h : c + actionsNeeded it ≤ maxActionsPerTransaction
      · left
        simp only [budgetFitLoop, h, if_pos]
        rcases ih (c + actionsNeeded it) with hle | hnil
        · simpa [totalActions, Nat.add_assoc, Nat.add_comm, Nat.add_left_comm] using hle
        · simp [totalActions, hnil]
          omega
      · exact Or.inr (by simp [budgetFitLoop, h])

lemma budgetFitLoop_maximal (items : List QueueItem) :
    ∀ (c n : Nat), n ≤ items.length →
      totalActions (items.take n) + c ≤ maxActionsPerTransaction →
      n ≤ (budgetFitLoop items c).length := by
  induction items with
  | nil =>
      intro c n hn _
      simp only [List.length_nil, Nat.le_zero] at hn
      simp [budgetFitLoop, hn]
  | cons it rest ih =>
      intro c n hn hcost
      cases n with
      | zero => exact Nat.zero_le _
      | succ m =>
          have hneeded : c + actionsNeeded it ≤ maxActionsPerTransaction := by
            simp only [List.take, totalActions, List.map_cons, List.sum_cons] at hcost
            omega
          have hm : m ≤ rest.length := by simpa using hn
          have hrest : totalActions (rest.take m) + (c + actionsNeeded it) ≤
              maxActionsPerTransaction := by
            simp only [List.take, totalActions, List.map_cons, List.sum_cons] at hcost
            simp only [totalActions]
            omega
          have := ih (c + actionsNeeded it) m hm hrest
          simp only [budgetFitLoop, hneeded, if_pos, List.length_cons]
          omega

lemma length_createActionsForItem (r : String) (a : Nat) (h : Bool) (m : Option String) :
    (createActionsForItem r a h m).length = if h then 1 else 2 := by
  cases h <;> simp [createActionsForItem]

/-- C5: Executor.processBatch selects exactly the maximal front segment of
the candidate list whose cumulative action cost (1 if has_storage_deposit,
else 2) fits within maxActionsPerTransaction, stopping at the first item
that would exceed the budget; consequently the action list of the batch
never holds more than maxActionsPerTransaction (100) actions. -/
theorem C5_budget_fit (items : List QueueItem) :
    (∃ rest, itemsToProcess items ++ rest = items) ∧
    totalActions (itemsToProcess items) ≤ maxActionsPerTransaction ∧
    (∀ n, n ≤ items.length →
      totalActions (items.take n) ≤ maxActionsPerTransaction →
      n ≤ (itemsToProcess items).length) ∧
    (batchActions items).length ≤ maxActionsPerTransaction := by
  refine ⟨budgetFitLoop_take items 0, ?_, ?_, ?_⟩
  · rcases budgetFitLoop_cost items 0 with h | h
    · simpa using h
    · simp [itemsToProcess, h, totalActions]
  · intro n hn hcost
    exact budgetFitLoop_maximal items 0 n hn (by simpa using hcost)
  · have hlen : (batchActions items).length = totalActions (itemsToProcess items) := by
      simp only [batchActions, List.length_flatMap, totalActions]
      congr 1
      apply List.map_congr_left
      intro it _
      simp only [Function.comp]
      rw [length_createActionsForItem]
      simp [actionsNeeded]
    rw [hlen]
    rcases budgetFitLoop_cost items 0 with h | h
    · simpa using h
    · simp [itemsToProcess, h, totalActions]

/-- A pending item without storage deposit, for concrete executor
scenarios. -/
def exampleNoDepositItem (n : Nat) : QueueItem :=
  { id := n + 1, receiver_account_id := "r", amount := 10, memo := none,
    created_at := 0, updated_at := 0, retry_count := 0, error_message := none,
    batch_id := none, is_stalled := false, has_storage_deposit := false }

/-- The 60-item candidate list of the mixed-budget scenario (all
has_storage_deposit = 0, so each costs 2 actions). -/
def exampleC5Items : List QueueItem :=
  (List.range 60).map exampleNoDepositItem

/-- C5 witness: at the 60-item candidate list the maximality conjunct
holds at n = 50, so the batch takes at least the first 50 items. -/
theorem C5_budget_fit_witness :
    50 ≤ exampleC5Items.length ∧
    totalActions (exampleC5Items.take 50) ≤ maxActionsPerTransaction ∧
    50 ≤ (itemsToProcess exampleC5Items).length :=
  ⟨by decide, by decide,
    (C5_budget_fit exampleC5Items).2.2.1 50 (by decide) (by decide)⟩

/-- Two batch rows with the same id are the same row when ids are
pairwise distinct (the primary-key property). -/
lemma batch_id_unique (l : List BatchTx) (h : l.Pairwise (fun a b => a.id ≠ b.id))
    (b1 b2 : BatchTx) (h1 : b1 ∈ l) (h2 : b2 ∈ l) (heq : b1.id = b2.id) : b1 = b2 := by
  induction l with
  | nil => cases h1
  | cons a t ih =>
      rw [List.pairwise_cons] at h
      rcases List.mem_cons.mp h1 with rfl | h1t
      · rcases List.mem_cons.mp h2 with rfl | h2t
        · rfl
        · exact absurd heq (h.1 b2 h2t)
      · rcases List.mem_cons.mp h2 with rfl | h2t
        · exact absurd heq.symm (h.1 b1 h1t)
        · exact ih h.2 h1t h2t

/-- One joined row counts as work iff its batch_id is NULL or it references
a processing batch (assuming batch ids are unique, as the primary key
guarantees). -/
lemma itemHasWork_iff (s : Store)
    (hbids : s.batch_transactions.Pairwise (fun a b => a.id ≠ b.id)) (it : QueueItem) :
    itemHasWork s it = true ↔
      (it.batch_id = none ∨
        ∃ bt ∈ s.batch_transactions, it.batch_id = some bt.id ∧
          bt.status = QueueStatus.processing) := by
  cases hb : it.batch_id with
  | none => simp [itemHasWork, hb]
  | some b =>
      simp only [itemHasWork, hb]
      cases hf : s.batch_transactions.find? (fun bt => bt.id == b) with
      | some bt =>
          have hmem := List.mem_of_find?_eq_some hf
          have hid : bt.id = b := by simpa using List.find?_some hf
          constructor
          · intro hs
            exact Or.inr ⟨bt, hmem, by rw [hid], by simpa using hs⟩
          · rintro (hnone | ⟨bt2, hmem2, hb2, hproc2⟩)
            · cases hnone
            · have hbt2 : bt2.id = b := by
                injection hb2 with h2
                omega
              have : bt = bt2 := batch_id_unique _ hbids bt bt2 hmem hmem2 (by rw [hid, hbt2])
              simp [this, hproc2]
      | none =>
          constructor
          · intro hs
            cases hs
          · rintro (hnone | ⟨bt2, hmem2, hb2, hproc2⟩)
            · cases hnone
            · have : (s.batch_transactions.find? (fun bt => bt.id == b)).isSome := by
                rw [List.find?_isSome]
                refine ⟨bt2, hmem2, ?_⟩
                injection hb2 with h2
                simp [h2]
              rw [hf] at this
              cases this

/-- C10: hasPendingOrProcessing is true iff some Item has a NULL batch_id
(stalled or not) or references a processing Batch; in particular a store
whose only remaining Items are stalled with NULL batch_id still reports
work, and waitUntilIdle does not resolve immediately there. -/
theorem C10_has_work (s : Store)
    (hbids : s.batch_transactions.Pairwise (fun a b => a.id ≠ b.id)) :
    (hasPendingOrProcessing s = true ↔
      ∃ it ∈ s.queue, it.batch_id = none ∨
        ∃ bt ∈ s.batch_transactions, it.batch_id = some bt.id ∧
          bt.status = QueueStatus.processing) ∧
    (∀ it ∈ s.queue, it.is_stalled = true → it.batch_id = none →
      hasPendingOrProcessing s = true ∧ waitUntilIdleResolvesNow s = false) := by
  constructor
  · rw [hasPendingOrProcessing, List.any_eq_true]
    constructor
    · rintro ⟨it, hmem, hwork⟩
      exact ⟨it, hmem, (itemHasWork_iff s hbids it).mp hwork⟩
    · rintro ⟨it, hmem, hcond⟩
      exact ⟨it, hmem, (itemHasWork_iff s hbids it).mpr hcond⟩
  · intro it hmem _ hnull
    have hwork : hasPendingOrProcessing s = true := by
      rw [hasPendingOrProcessing, List.any_eq_true]
      exact ⟨it, hmem, by simp [itemHasWork, hnull]⟩
    exact ⟨hwork, by simp [waitUntilIdleResolvesNow, hwork]⟩

/-- A store whose only Item is stalled with NULL batch_id. -/
def exampleC10Store : Store :=
  { queue := [{ id := 1, receiver_account_id := "alice", amount := 5, memo := none,
                created_at := 0, updated_at := 0, retry_count := 3,
                error_message := some "err", batch_id := none, is_stalled := true,
                has_storage_deposit := false }],
    batch_transactions := [], next_queue_id := 2, next_batch_id := 1 }

/-- C10 witness: the stalled-only store still reports work and
waitUntilIdle does not resolve immediately. -/
theorem C10_has_work_witness :
    hasPendingOrProcessing exampleC10Store = true ∧
    waitUntilIdleResolvesNow exampleC10Store = false :=
  (C10_has_work exampleC10Store (by simp [exampleC10Store])).2
    { id := 1, receiver_account_id := "alice", amount := 5, memo := none,
      created_at := 0, updated_at := 0, retry_count := 3,
      error_message := some "err", batch_id := none, is_stalled := true,
      has_storage_deposit := false }
    (by simp [exampleC10Store]) rfl rfl

/-- C9: peek returns at most limit rows, each pending in the scheduler
sense (batch_id NULL and not stalled), in ascending id order; peek 0 is
empty and the operation leaves the store unchanged. -/
theorem C9_peek (s : Store) (limit : Nat)
    (hsorted : s.queue.Pairwise (fun a b => a.id < b.id)) :
    (peek s limit).length ≤ limit ∧
    (∀ it ∈ peek s limit, it.batch_id = none ∧ it.is_stalled = false) ∧
    (peek s limit).Pairwise (fun a b => a.id < b.id) ∧
    peek s 0 = [] ∧
    peekOp s limit = (peek s limit, s) := by
  refine ⟨?_, ?_, ?_, ?_, rfl⟩
  · simp only [peek, List.length_take]
    omega
  · intro it hmem
    have hf := List.mem_filter.mp (List.mem_of_mem_take hmem)
    have hp := hf.2
    simp only [Bool.and_eq_true, Option.isNone_iff_eq_none, Bool.not_eq_true'] at hp
    exact hp
  · exact hsorted.sublist
      (List.Sublist.trans (List.take_sublist _ _) (List.filter_sublist _))
  · simp [peek]

/-- A store with three rows: one pending, one stalled, one attached to a
batch. -/
def exampleC9Store : Store :=
  { queue := [{ id := 1, receiver_account_id := "a", amount := 1, memo := none,
                created_at := 0, updated_at := 0, retry_count := 0,
                error_message := none, batch_id := none, is_stalled := false,
                has_storage_deposit := false },
              { id := 2, receiver_account_id := "b", amount := 2, memo := none,
                created_at := 0, updated_at := 0, retry_count := 0,
                error_message := none, batch_id := none, is_stalled := true,
                has_storage_deposit := false },
              { id := 3, receiver_account_id := "c", amount := 3, memo := none,
                created_at := 0, updated_at := 0, retry_count := 0,
                error_message := none, batch_id := some 1, is_stalled := false,
                has_storage_deposit := true }],
    batch_transactions := [{ id := 1, tx_hash := "h", signed_tx := some "blob",
                             status := QueueStatus.processing, created_at := 0,
                             updated_at := 0 }],
    next_queue_id := 4, next_batch_id := 2 }

/-- C9 witness: the peek contract instantiated at the three-row store with
limit 10. -/
theorem C9_peek_witness :
    (peek exampleC9Store 10).length ≤ 10 ∧
    (∀ it ∈ peek exampleC9Store 10, it.batch_id = none ∧ it.is_stalled = false) ∧
    (peek exampleC9Store 10).Pairwise (fun a b => a.id < b.id) ∧
    peek exampleC9Store 0 = [] ∧
    peekOp exampleC9Store 10 = (peek exampleC9Store 10, exampleC9Store) :=
  C9_peek exampleC9Store 10 (by simp [exampleC9Store])

/-- Sum of the amounts of all rows addressed to a receiver. -/
def receiverTotal (r : String) : List QueueItem → Nat
  | [] => 0
  | it :: rest => (if it.receiver_account_id == r then it.amount else 0) + receiverTotal r rest

lemma receiverTotal_append (r : String) (l1 l2 : List QueueItem) :
    receiverTotal r (l1 ++ l2) = receiverTotal r l1 + receiverTotal r l2 := by
  induction l1 with
  | nil => simp [receiverTotal]
  | cons a t ih =>
      simp only [List.cons_append, receiverTotal]
      rw [show t.append l2 = t ++ l2 from rfl, ih]
      omega

lemma receiverTotal_merge (r : String) (l : List QueueItem) (ex : QueueItem) (add : Nat)
    (memo2 : Option String) (hsd2 : Bool) (now : Nat)
    (hdist : l.Pairwise (fun a b => a.id ≠ b.id))
    (hmem : ex ∈ l) (hrecv : (ex.receiver_account_id == r) = true) :
    receiverTotal r (l.map (fun it =>
      if it.id == ex.id then
        { it with amount := it.amount + add, memo := memo2,
                  has_storage_deposit := hsd2, updated_at := now }
      else it)) = receiverTotal r l + add := by
  induction l with
  | nil => cases hmem
  | cons a t ih =>
      rw [List.pairwise_cons] at hdist
      rcases List.mem_cons.mp hmem with rfl | hmt
      · have hmap : t.map (fun it =>
            if it.id == ex.id then
              { it with amount := it.amount + add, memo := memo2,
                        has_storage_deposit := hsd2, updated_at := now }
            else it) = t := by
          have hcong : ∀ it ∈ t, (if it.id == ex.id then
              { it with amount := it.amount + add, memo := memo2,
                        has_storage_deposit := hsd2, updated_at := now }
            else it) = id it := by
            intro it hit
            have hne : ex.id ≠ it.id := hdist.1 it hit
            simp [beq_eq_false_iff_ne.mpr (fun h => hne h.symm)]
          rw [List.map_congr_left hcong, List.map_id]
        simp only [List.map_cons, hmap, receiverTotal]
        simp [hrecv]
        omega
      · have hne : (a.id == ex.id) = false :=
          beq_eq_false_iff_ne.mpr (fun h => hdist.1 ex hmt h)
        simp only [List.map_cons, receiverTotal]
        rw [ih hdist.2 hmt]
        simp [hne]
        omega

/-- C4: enqueue rejects exactly the amount strings that are not
non-negative integer strings, touching nothing, and accepts every
non-negative integer string (including the value 0 and integers of
arbitrary length), adding its exact value to the stored total for the
receiver. -/
theorem C4_enqueue_validation (opts : QueueOptions) (s : Store) (receiver amount : String)
    (memo : Option String) (hsd : Option Bool) (now : Nat)
    (hdist : s.queue.Pairwise (fun a b => a.id ≠ b.id)) :
    (isValidAmount amount = false →
      enqueue opts s receiver amount memo hsd now = Except.error EnqueueError.InvalidAmount) ∧
    (isValidAmount amount = true →
      ∃ s2 id2, enqueue opts s receiver amount memo hsd now = Except.ok (s2, id2) ∧
        receiverTotal receiver s2.queue = receiverTotal receiver s.queue + strToNat amount) := by
  constructor
  · intro hbad
    simp [enqueue, hbad]
  · intro hok
    refine ⟨(push opts s
      { receiver_account_id := receiver, amount := strToNat amount, memo := memo,
        has_storage_deposit := hsd } now).1, (push opts s
      { receiver_account_id := receiver, amount := strToNat amount, memo := memo,
        has_storage_deposit := hsd } now).2, by simp [enqueue, hok], ?_⟩
    by_cases hm : opts.mergeExistingAccounts = true
    · cases hfind : findMergeTarget s receiver with
      | some ex =>
          have hex := List.find?_some hfind
          have hmem := List.mem_of_find?_eq_some hfind
          simp only [Bool.and_eq_true] at hex
          rw [push_eq_merge opts s _ now ex hm hfind]
          exact receiverTotal_merge receiver s.queue ex (strToNat amount) (memoOrNull memo)
            (hsd.getD opts.defaultHasStorageDeposit) now hdist hmem hex.1
      | none =>
          rw [push_eq_insert_of_none opts s _ now hfind]
          simp only [pushInsertNew]
          rw [receiverTotal_append]
          simp [receiverTotal]
    · rw [push_eq_insert_of_nomerge opts s _ now (by simpa using hm)]
      simp only [pushInsertNew]
      rw [receiverTotal_append]
      simp [receiverTotal]

/-- A sequence of Queue.push calls. -/
def pushSeq (opts : QueueOptions) (s : Store) (ts : List TransferRequest) (now : Nat) : Store :=
  ts.foldl (fun st t => (push opts st t now).1) s

lemma find?_merge_map (l : List QueueItem) (r : String) (g : QueueItem → QueueItem)
    (hg : ∀ it, (g it).receiver_account_id = it.receiver_account_id ∧
      (g it).batch_id = it.batch_id) :
    (l.map g).find? (fun it => it.receiver_account_id == r && it.batch_id.isNone) =
      (l.find? (fun it => it.receiver_account_id == r && it.batch_id.isNone)).map g := by
  rw [List.find?_map]
  have hpred : ((fun it : QueueItem => it.receiver_account_id == r && it.batch_id.isNone) ∘ g)
      = (fun it : QueueItem => it.receiver_account_id == r && it.batch_id.isNone) := by
    funext it
    simp [Function.comp, (hg it).1, (hg it).2]
  rw [hpred]

lemma pushSeq_merge_run (opts : QueueOptions) (r : String) (now : Nat) :
    ∀ (ts : List TransferRequest) (s : Store) (ex : QueueItem),
      opts.mergeExistingAccounts = true →
      (∀ t ∈ ts, t.receiver_account_id = r) →
      findMergeTarget s r = some ex →
      getById s ex.id = some ex →
      ∃ ex2 : QueueItem,
        getById (pushSeq opts s ts now) ex.id = some ex2 ∧
        ex2.amount = ex.amount + (ts.map TransferRequest.amount).sum ∧
        ex2.receiver_account_id = ex.receiver_account_id ∧
        (pushSeq opts s ts now).queue.length = s.queue.length := by
  intro ts
  induction ts with
  | nil =>
      intro s ex _ _ _ hget
      exact ⟨ex, by simpa [pushSeq] using hget, by simp, rfl, rfl⟩
  | cons t rest ih =>
      intro s ex hm hts hfind hget
      have hfr : findMergeTarget s t.receiver_account_id = some ex := by
        rw [hts t (List.mem_cons_self t rest)]
        exact hfind
      have hpush := push_eq_merge opts s t now ex hm hfr
      have hseq : pushSeq opts s (t :: rest) now =
          pushSeq opts (pushMergeInto opts s t now ex.id).1 rest now := by
        simp only [pushSeq, List.foldl_cons, hpush]
      set gM := fun it : QueueItem =>
        if it.id == ex.id then
          { it with amount := it.amount + t.amount,
                    memo := memoOrNull t.memo,
                    has_storage_deposit := t.has_storage_deposit.getD
                      opts.defaultHasStorageDeposit,
                    updated_at := now }
        else it with hgM
      have hgid : ∀ it, (gM it).id = it.id := by
        intro it
        rw [hgM]
        dsimp only
        split <;> rfl
      have hgrb : ∀ it, (gM it).receiver_account_id = it.receiver_account_id ∧
          (gM it).batch_id = it.batch_id := by
        intro it
        rw [hgM]
        dsimp only
        split <;> exact ⟨rfl, rfl⟩
      have hqueue : (pushMergeInto opts s t now ex.id).1.queue = s.queue.map gM := rfl
      have hgMex : gM ex = { ex with amount := ex.amount + t.amount,
                                     memo := memoOrNull t.memo,
                                     has_storage_deposit := t.has_storage_deposit.getD
                                       opts.defaultHasStorageDeposit,
                                     updated_at := now } := by
        rw [hgM]
        simp
      have hget1 : getById (pushMergeInto opts s t now ex.id).1 ex.id = some (gM ex) := by
        show ((pushMergeInto opts s t now ex.id).1.queue.find? (fun it => it.id == ex.id))
          = some (gM ex)
        rw [hqueue, find?_id_map s.queue gM hgid ex.id]
        rw [show s.queue.find? (fun it => it.id == ex.id) = getById s ex.id from rfl, hget]
        rfl
      have hfind1 : findMergeTarget (pushMergeInto opts s t now ex.id).1 r = some (gM ex) := by
        show ((pushMergeInto opts s t now ex.id).1.queue.find?
          (fun it => it.receiver_account_id == r && it.batch_id.isNone)) = some (gM ex)
        rw [hqueue, find?_merge_map s.queue r gM hgrb]
        rw [show s.queue.find? (fun it => it.receiver_account_id == r && it.batch_id.isNone)
          = findMergeTarget s r from rfl, hfind]
        rfl
      have hexid : (gM ex).id = ex.id := hgid ex
      obtain ⟨ex2, h1, h2, h3, h4⟩ := ih (pushMergeInto opts s t now ex.id).1 (gM ex) hm
        (fun u hu => hts u (List.mem_cons_of_mem t hu)) hfind1 (by rw [hexid]; exact hget1)
      refine ⟨ex2, ?_, ?_, ?_, ?_⟩
      · rw [hseq]
        rw [hexid] at h1
        exact h1
      · rw [h2, hgMex]
        simp [List.map_cons, List.sum_cons]
        omega
      · rw [h3, hgMex]
      · rw [hseq, h4, hqueue]
        simp

/-- C8: a run of enqueues to the same receiver, starting from a store with
no batch_id-NULL row for that receiver, coalesces into the single freshly
inserted Item whose amount is the exact arbitrary-precision sum of all the
enqueued amounts, with no other row added. -/
theorem C8_coalescing_amount_sum (opts : QueueOptions) (s : Store) (r : String)
    (ts : List TransferRequest) (now : Nat)
    (hm : opts.mergeExistingAccounts = true)
    (hts : ∀ t ∈ ts, t.receiver_account_id = r)
    (hne : ts ≠ [])
    (hnone : findMergeTarget s r = none)
    (hfresh : ∀ it ∈ s.queue, it.id ≠ s.next_queue_id) :
    ∃ ex2 : QueueItem,
      getById (pushSeq opts s ts now) s.next_queue_id = some ex2 ∧
      ex2.amount = (ts.map TransferRequest.amount).sum ∧
      ex2.receiver_account_id = r ∧
      (pushSeq opts s ts now).queue.length = s.queue.length + 1 := by
  cases ts with
  | nil => exact absurd rfl hne
  | cons t rest =>
      have htr : t.receiver_account_id = r := hts t (List.mem_cons_self t rest)
      have hfr : findMergeTarget s t.receiver_account_id = none := by
        rw [htr]
        exact hnone
      have hpush := push_eq_insert_of_none opts s t now hfr
      have hseq : pushSeq opts s (t :: rest) now =
          pushSeq opts (pushInsertNew opts s t now).1 rest now := by
        simp only [pushSeq, List.foldl_cons, hpush]
      set fresh : QueueItem :=
        { id := s.next_queue_id,
          receiver_account_id := t.receiver_account_id,
          amount := t.amount,
          memo := memoOrNull t.memo,
          created_at := now,
          updated_at := now,
          retry_count := 0,
          error_message := none,
          batch_id := none,
          is_stalled := false,
          has_storage_deposit := t.has_storage_deposit.getD opts.defaultHasStorageDeposit }
        with hfreshdef
      have hq1 : (pushInsertNew opts s t now).1.queue = s.queue ++ [fresh] := rfl
      have hnofind : s.queue.find? (fun it => it.id == s.next_queue_id) = none := by
        rw [List.find?_eq_none]
        intro it hit
        simp [hfresh it hit]
      have hget1 : getById (pushInsertNew opts s t now).1 s.next_queue_id = some fresh := by
        show ((pushInsertNew opts s t now).1.queue.find?
          (fun it => it.id == s.next_queue_id)) = some fresh
        rw [hq1, List.find?_append, hnofind]
        simp [hfreshdef]
      have hnofindm : s.queue.find?
          (fun it => it.receiver_account_id == r && it.batch_id.isNone) = none := hnone
      have hfind1 : findMergeTarget (pushInsertNew opts s t now).1 r = some fresh := by
        show ((pushInsertNew opts s t now).1.queue.find?
          (fun it => it.receiver_account_id == r && it.batch_id.isNone)) = some fresh
        rw [hq1, List.find?_append, hnofindm]
        simp [hfreshdef, htr]
      obtain ⟨ex2, h1, h2, h3, h4⟩ := pushSeq_merge_run opts r now rest
        (pushInsertNew opts s t now).1 fresh hm
        (fun u hu => hts u (List.mem_cons_of_mem t hu)) hfind1
        (by rw [show fresh.id = s.next_queue_id from rfl]; exact hget1)
      refine ⟨ex2, ?_, ?_, ?_, ?_⟩
      · rw [hseq]
        rw [show fresh.id = s.next_queue_id from rfl] at h1
        exact h1
      · rw [h2]
        simp [hfreshdef]
      · rw [h3, hfreshdef, htr]
      · rw [hseq, h4, hq1]
        simp

/-- The default queue options (mergeExistingAccounts true,
defaultHasStorageDeposit false). -/
def exampleOpts : QueueOptions :=
  { mergeExistingAccounts := true, defaultHasStorageDeposit := false }

/-- A 120-digit amount string. -/
def exampleBigAmount : String :=
  "918273645091827364509182736450918273645091827364509182736450918273645091827364509182736450918273645091827364509182736450"

/-- C4 witness: the 120-digit amount string is accepted and its exact
value is added to the stored total, starting from the empty store. -/
theorem C4_enqueue_validation_witness :
    isValidAmount exampleBigAmount = true ∧
    ∃ s2 id2,
      enqueue exampleOpts initialStore "alice" exampleBigAmount none none 3 =
        Except.ok (s2, id2) ∧
      receiverTotal "alice" s2.queue =
        receiverTotal "alice" initialStore.queue + strToNat exampleBigAmount :=
  ⟨by decide,
    (C4_enqueue_validation exampleOpts initialStore "alice" exampleBigAmount none none 3
      (by simp [initialStore])).2 (by decide)⟩

/-- Three transfers to the same receiver. -/
def exampleC8Transfers : List TransferRequest :=
  [{ receiver_account_id := "bob", amount := 100, memo := none, has_storage_deposit := none },
   { receiver_account_id := "bob", amount := 200, memo := none, has_storage_deposit := none },
   { receiver_account_id := "bob", amount := 300, memo := none, has_storage_deposit := none }]

/-- C8 witness: the three enqueues of 100, 200 and 300 to one receiver
coalesce into a single Item with amount 600, starting from the empty
store. -/
theorem C8_coalescing_amount_sum_witness :
    ∃ ex2 : QueueItem,
      getById (pushSeq exampleOpts initialStore exampleC8Transfers 9)
        initialStore.next_queue_id = some ex2 ∧
      ex2.amount = (exampleC8Transfers.map TransferRequest.amount).sum ∧
      ex2.receiver_account_id = "bob" ∧
      (pushSeq exampleOpts initialStore exampleC8Transfers 9).queue.length =
        initialStore.queue.length + 1 :=
  C8_coalescing_amount_sum exampleOpts initialStore "bob" exampleC8Transfers 9
    (by decide) (by decide) (by decide) (by decide) (by decide)

/-- C6: attachBatch (createSignedTransaction) followed by
recoverFailedBatch on the produced batch with no error message and no
retry limit returns each attached pending Item to its pre-attach state
(receiver, amount, memo, has_storage_deposit, is_stalled and error_message
unchanged; batch_id back to NULL), except that retry_count is incremented
by exactly one and updated_at carries the recovery timestamp. -/
theorem C6_attach_recover_roundtrip (s : Store) (r : QueueItem) (txh blob : String)
    (ids : List Nat) (now now2 : Nat)
    (hr : getById s r.id = some r) (hid : r.id ∈ ids) (_hpend : r.batch_id = none) :
    getById (recoverFailedBatch (createSignedTransaction s txh blob ids now).1
        (createSignedTransaction s txh blob ids now).2 none none now2) r.id =
      some { r with batch_id := none, retry_count := r.retry_count + 1,
                    updated_at := now2 } := by
  have hbid : (createSignedTransaction s txh blob ids now).2 = s.next_batch_id := rfl
  rw [hbid, getById_recoverFailedBatch, getById_createSignedTransaction, hr]
  have hcont : ids.contains r.id = true := List.elem_eq_true_of_mem hid
  simp [rfbRow, rowReset, rowSetError, rowSweep, isTruthy, hcont, hid]

/-- A store with one pending Item for the C6 witness. -/
def exampleC6Store : Store :=
  { queue := [{ id := 1, receiver_account_id := "carol", amount := 42, memo := some "m",
                created_at := 0, updated_at := 0, retry_count := 0, error_message := none,
                batch_id := none, is_stalled := false, has_storage_deposit := true }],
    batch_transactions := [], next_queue_id := 2, next_batch_id := 1 }

/-- C6 witness: attach the single pending Item to a batch and recover it;
the Item is back to pending with retry_count 1 and nothing else changed. -/
theorem C6_attach_recover_roundtrip_witness :
    getById (recoverFailedBatch (createSignedTransaction exampleC6Store "hash" "blob" [1] 5).1
        (createSignedTransaction exampleC6Store "hash" "blob" [1] 5).2 none none 6) 1 =
      some { id := 1, receiver_account_id := "carol", amount := 42, memo := some "m",
             created_at := 0, updated_at := 6, retry_count := 1, error_message := none,
             batch_id := none, is_stalled := false, has_storage_deposit := true } :=
  C6_attach_recover_roundtrip exampleC6Store
    { id := 1, receiver_account_id := "carol", amount := 42, memo := some "m",
      created_at := 0, updated_at := 0, retry_count := 0, error_message := none,
      batch_id := none, is_stalled := false, has_storage_deposit := true }
    "hash" "blob" [1] 5 6 (by decide) (by decide) rfl

/-- C3 (amended): with coalescing enabled, push merges into the first
batch_id-NULL Item for the receiver regardless of is_stalled — a stalled
Item with NULL batch_id receives the merge instead of a new row being
inserted — and the merge stores the arbitrary-precision amount sum and
overwrites memo and has_storage_deposit with the new values. -/
theorem C3_amended_merge (opts : QueueOptions) (s : Store) (t : TransferRequest) (now : Nat)
    (ex : QueueItem)
    (hm : opts.mergeExistingAccounts = true)
    (hfind : findMergeTarget s t.receiver_account_id = some ex)
    (hget : getById s ex.id = some ex) :
    (push opts s t now).2 = ex.id ∧
    (push opts s t now).1.queue.length = s.queue.length ∧
    getById (push opts s t now).1 ex.id =
      some { ex with amount := ex.amount + t.amount,
                     memo := memoOrNull t.memo,
                     has_storage_deposit := t.has_storage_deposit.getD
                       opts.defaultHasStorageDeposit,
                     updated_at := now } := by
  rw [push_eq_merge opts s t now ex hm hfind]
  refine ⟨rfl, by simp [pushMergeInto], ?_⟩
  have hmap := find?_id_map s.queue (fun it =>
    if it.id == ex.id then
      { it with amount := it.amount + t.amount,
                memo := memoOrNull t.memo,
                has_storage_deposit := t.has_storage_deposit.getD opts.defaultHasStorageDeposit,
                updated_at := now }
    else it) (by intro it; by_cases h : (it.id == ex.id) = true <;> simp [h]) ex.id
  show ((pushMergeInto opts s t now ex.id).1.queue.find? (fun it => it.id == ex.id)) = _
  rw [show (pushMergeInto opts s t now ex.id).1.queue = s.queue.map (fun it =>
    if it.id == ex.id then
      { it with amount := it.amount + t.amount,
                memo := memoOrNull t.memo,
                has_storage_deposit := t.has_storage_deposit.getD opts.defaultHasStorageDeposit,
                updated_at := now }
    else it) from rfl, hmap,
    show s.queue.find? (fun it => it.id == ex.id) = getById s ex.id from rfl, hget]
  simp

/-- A store whose only row for the receiver is stalled with NULL
batch_id. -/
def exampleC3Store : Store :=
  { queue := [{ id := 1, receiver_account_id := "alice", amount := 5, memo := none,
                created_at := 0, updated_at := 0, retry_count := 2,
                error_message := some "boom", batch_id := none, is_stalled := true,
                has_storage_deposit := false }],
    batch_transactions := [], next_queue_id := 2, next_batch_id := 1 }

/-- The transfer pushed at the stalled row in the C3 counterexample. -/
def exampleC3Transfer : TransferRequest :=
  { receiver_account_id := "alice", amount := 7, memo := none, has_storage_deposit := none }

/-- C3 counterexample: the claim says enqueue inserts a new Item when the
only batch_id-NULL Item for the receiver is stalled; at this input the
code instead adds the amount into the stalled Item (5 + 7 = 12) and the
queue keeps a single row. -/
theorem C3_counterexample :
    (push exampleOpts exampleC3Store exampleC3Transfer 4).1.queue.length = 1 ∧
    (getById (push exampleOpts exampleC3Store exampleC3Transfer 4).1 1).map QueueItem.amount
      = some 12 ∧
    (getById (push exampleOpts exampleC3Store exampleC3Transfer 4).1 1).map
      QueueItem.is_stalled = some true ∧
    ¬((push exampleOpts exampleC3Store exampleC3Transfer 4).1.queue.length = 2) := by
  decide

/-- C3 witness: pushing amount 7 at the store whose only
receiver row is stalled with NULL batch_id merges into that stalled row
(amount 5 + 7 = 12, still stalled, queue length unchanged). -/
theorem C3_amended_merge_witness :
    (push exampleOpts exampleC3Store exampleC3Transfer 4).2 = 1 ∧
    (push exampleOpts exampleC3Store exampleC3Transfer 4).1.queue.length =
      exampleC3Store.queue.length ∧
    getById (push exampleOpts exampleC3Store exampleC3Transfer 4).1 1 =
      some { id := 1, receiver_account_id := "alice", amount := 12, memo := none,
             created_at := 0, updated_at := 4, retry_count := 2,
             error_message := some "boom", batch_id := none, is_stalled := true,
             has_storage_deposit := false } :=
  C3_amended_merge exampleOpts exampleC3Store exampleC3Transfer 4
    { id := 1, receiver_account_id := "alice", amount := 5, memo := none,
      created_at := 0, updated_at := 0, retry_count := 2, error_message := some "boom",
      batch_id := none, is_stalled := true, has_storage_deposit := false }
    rfl (by decide) (by decide)

/-- C2 (amended): recoverFailedBatch(batchId, errorMessage, maxRetries)
affects rows outside the batch through its retry-limit sweep, which ranges
over every row with NULL batch_id: a row not in the batch is unchanged
unless its batch_id is NULL and its retry_count already exceeds
maxRetries, in which case it is marked stalled; a row of the batch gets
error_message set when the message is truthy, batch_id cleared,
retry_count incremented, and is marked stalled exactly when its new
retry_count exceeds maxRetries, all in the same transaction. -/
theorem C2_amended_frame (s : Store) (b m now x : Nat) (emsg : Option String)
    (r : QueueItem) (hx : getById s x = some r) :
    (r.batch_id ≠ some b →
      getById (recoverFailedBatch s b emsg (some m) now) x =
        some (if r.batch_id = none ∧ m < r.retry_count then
          { r with is_stalled := true } else r)) ∧
    (r.batch_id = some b →
      getById (recoverFailedBatch s b emsg (some m) now) x =
        some { r with
          error_message := if isTruthy emsg then emsg else r.error_message,
          batch_id := none,
          retry_count := r.retry_count + 1,
          updated_at := now,
          is_stalled := if m < r.retry_count + 1 then true else r.is_stalled }) := by
  constructor
  · intro hnb
    rw [getById_recoverFailedBatch, hx]
    simp only [Option.map_some']
    have hbeq : (r.batch_id == some b) = false := by
      rw [beq_eq_false_iff_ne]
      exact hnb
    have h1 : (if isTruthy emsg then rowSetError b emsg now r else r) = r := by
      by_cases he : isTruthy emsg = true
      · simp [he, rowSetError, hbeq]
      · simp [he]
    have h2 : rowReset b now r = r := by
      simp [rowReset, hbeq]
    unfold rfbRow
    dsimp only
    rw [h1, h2]
    unfold rowSweep
    by_cases hc1 : r.batch_id = none
    · by_cases hc2 : m < r.retry_count
      · simp [hc1, hc2]
      · simp [hc1, hc2]
    · have hno : r.batch_id.isNone = false := by
        cases hq : r.batch_id with
        | none => exact absurd hq hc1
        | some v => rfl
      simp [hno, hc1]
  · intro hb
    rw [getById_recoverFailedBatch, hx]
    simp only [Option.map_some']
    have hbeq : (r.batch_id == some b) = true := by
      rw [hb]
      simp
    unfold rfbRow
    dsimp only
    by_cases he : isTruthy emsg = true
    · rw [he]
      simp only [if_true]
      rw [show rowSetError b emsg now r =
        { r with error_message := emsg, updated_at := now } from by simp [rowSetError, hbeq]]
      rw [show rowReset b now { r with error_message := emsg, updated_at := now } =
        { r with error_message := emsg, batch_id := none,
                 retry_count := r.retry_count + 1, updated_at := now } from by
        simp [rowReset, hbeq]]
      unfold rowSweep
      by_cases hc2 : m < r.retry_count + 1
      · simp [hc2, he]
      · simp [hc2, he]
    · have he2 : isTruthy emsg = false := by simpa using he
      rw [he2]
      simp only [Bool.false_eq_true, if_false]
      rw [show rowReset b now r =
        { r with batch_id := none, retry_count := r.retry_count + 1,
                 updated_at := now } from by simp [rowReset, hbeq]]
      unfold rowSweep
      by_cases hc2 : m < r.retry_count + 1
      · simp [hc2, he2]
      · simp [hc2, he2]

/-- A store with a high-retry pending row (id 1) outside the batch and one
row (id 2) inside batch 1. -/
def exampleC2Store : Store :=
  { queue := [{ id := 1, receiver_account_id := "a", amount := 1, memo := none,
                created_at := 0, updated_at := 0, retry_count := 6, error_message := none,
                batch_id := none, is_stalled := false, has_storage_deposit := false },
              { id := 2, receiver_account_id := "b", amount := 2, memo := none,
                created_at := 0, updated_at := 0, retry_count := 0, error_message := none,
                batch_id := some 1, is_stalled := false, has_storage_deposit := false }],
    batch_transactions := [{ id := 1, tx_hash := "h", signed_tx := some "x",
                             status := QueueStatus.processing, created_at := 0,
                             updated_at := 0 }],
    next_queue_id := 3, next_batch_id := 2 }

/-- C2 counterexample: recovering batch 1 with maxRetries 5 stalls row 1,
which is not in the batch (its batch_id is NULL and its retry_count 6
exceeds 5), so the call modifies an Item outside the batch. -/
theorem C2_counterexample :
    (getById exampleC2Store 1).map QueueItem.batch_id = some none ∧
    (getById exampleC2Store 1).map QueueItem.is_stalled = some false ∧
    (getById (recoverFailedBatch exampleC2Store 1 none (some 5) 7) 1).map
      QueueItem.is_stalled = some true ∧
    ¬((getById (recoverFailedBatch exampleC2Store 1 none (some 5) 7) 1).map
      QueueItem.is_stalled = some false) := by
  decide

/-- C2 witness: the amended characterization instantiated at the same
store, for the in-batch row 2 with maxRetries 5. -/
theorem C2_amended_frame_witness :
    ({ id := 2, receiver_account_id := "b", amount := 2, memo := none,
       created_at := 0, updated_at := 0, retry_count := 0, error_message := none,
       batch_id := some 1, is_stalled := false,
       has_storage_deposit := false } : QueueItem).batch_id = some 1 ∧
    getById (recoverFailedBatch exampleC2Store 1 none (some 5) 7) 2 =
      some { id := 2, receiver_account_id := "b", amount := 2, memo := none,
             created_at := 0, updated_at := 7, retry_count := 1, error_message := none,
             batch_id := none, is_stalled := false, has_storage_deposit := false } :=
  ⟨rfl,
    (C2_amended_frame exampleC2Store 1 5 7 2 none
      { id := 2, receiver_account_id := "b", amount := 2, memo := none,
        created_at := 0, updated_at := 0, retry_count := 0, error_message := none,
        batch_id := some 1, is_stalled := false, has_storage_deposit := false }
      (by decide)).2 rfl⟩

lemma recoverFailedBatch_batch_transactions (s : Store) (b : Nat) (em : Option String)
    (mr : Option Nat) (now : Nat) :
    (recoverFailedBatch s b em mr now).batch_transactions =
      s.batch_transactions.filter (fun bt => !(bt.id == b)) := by
  unfold recoverFailedBatch
  by_cases he : isTruthy em = true
  · rw [he]
    cases mr <;> simp
  · have he2 : isTruthy em = false := by simpa using he
    rw [he2]
    cases mr <;> simp

lemma markItemStalled_batch_transactions (s : Store) (itemId : Nat) (em : String) (now : Nat) :
    (markItemStalled s itemId em now).batch_transactions = s.batch_transactions := rfl

lemma handleActionErrorIndexed_eq (s : Store) (items : List QueueItem) (i : Nat)
    (em : String) (b m now : Nat) (item : QueueItem)
    (hsome : items.get? i = some item) :
    handleActionErrorIndexed s items i em b m now =
      recoverFailedBatch (markItemStalled s item.id em now) b none (some m) now := by
  unfold handleActionErrorIndexed
  split
  · rename_i item2 heq
    rw [hsome] at heq
    injection heq with h2
    rw [h2]
  · rename_i heq
    rw [hsome] at heq
    cases heq

/-- C1 (amended): on an ActionError with a defined action index i the
Executor stalls the Item at position i with the error text and then runs
recoverFailedBatch with no error message but WITH the configured
maxRetries; every Item of the batch, the stalled one included, gets
batch_id cleared and retry_count incremented from 0 to 1 (so, with
maxRetries at least 1, no sibling is stalled by the sweep), and the Batch
row is deleted.  Siblings end pending with retry_count 1, not 0. -/
theorem C1_amended_action_error (s : Store) (items : List QueueItem) (i b m now : Nat)
    (em : String)
    (hi : i < items.length)
    (hm : 1 ≤ m)
    (hall : ∀ it ∈ items, getById s it.id = some it ∧ it.batch_id = some b ∧
      it.retry_count = 0)
    (hids : items.Pairwise (fun a c => a.id ≠ c.id)) :
    getById (handleActionErrorIndexed s items i em b m now) (items.get ⟨i, hi⟩).id =
      some { items.get ⟨i, hi⟩ with is_stalled := true,
                                    error_message := some em,
                                    batch_id := none,
                                    retry_count := 1,
                                    updated_at := now } ∧
    (∀ j (hj : j < items.length), j ≠ i →
      getById (handleActionErrorIndexed s items i em b m now) (items.get ⟨j, hj⟩).id =
        some { items.get ⟨j, hj⟩ with batch_id := none,
                                      retry_count := 1,
                                      updated_at := now }) ∧
    (handleActionErrorIndexed s items i em b m now).batch_transactions.find?
      (fun bt => bt.id == b) = none := by
  have hgetI : items.get? i = some (items.get ⟨i, hi⟩) := List.get?_eq_get hi
  have hH := handleActionErrorIndexed_eq s items i em b m now (items.get ⟨i, hi⟩) hgetI
  have hnotlt : decide (m < 1) = false := by
    simp
    omega
  refine ⟨?_, ?_, ?_⟩
  · obtain ⟨hget, hb, hr0⟩ := hall (items.get ⟨i, hi⟩) (List.get_mem items i hi)
    set itI := items.get ⟨i, hi⟩ with hitI
    rw [hH, getById_recoverFailedBatch, getById_markItemStalled, hget]
    simp only [Option.map_some']
    simp only [beq_self_eq_true, if_true]
    unfold rfbRow rowReset rowSweep
    dsimp only
    simp [isTruthy, hb, hr0, hnotlt]
  · intro j hj hne
    obtain ⟨hget, hb, hr0⟩ := hall (items.get ⟨j, hj⟩) (List.get_mem items j hj)
    have hneid : ((items.get ⟨j, hj⟩).id == (items.get ⟨i, hi⟩).id) = false := by
      rw [beq_eq_false_iff_ne]
      rcases Nat.lt_or_ge j i with hlt | hge
      · exact List.pairwise_iff_get.mp hids ⟨j, hj⟩ ⟨i, hi⟩ hlt
      · have hlt2 : i < j := Nat.lt_of_le_of_ne hge (fun h => hne h.symm)
        exact fun h => (List.pairwise_iff_get.mp hids ⟨i, hi⟩ ⟨j, hj⟩ hlt2) h.symm
    set itI := items.get ⟨i, hi⟩ with hitI
    set itJ := items.get ⟨j, hj⟩ with hitJ
    rw [hH, getById_recoverFailedBatch, getById_markItemStalled, hget]
    simp only [Option.map_some']
    simp only [hneid, Bool.false_eq_true, if_false]
    unfold rfbRow rowReset rowSweep
    dsimp only
    have hm0 : ¬(m = 0) := by omega
    simp [isTruthy, hb, hr0, hnotlt, hm0]
  · rw [hH, recoverFailedBatch_batch_transactions, markItemStalled_batch_transactions,
      List.find?_eq_none]
    intro bt hmem
    have := (List.mem_filter.mp hmem).2
    simpa using this

/-- One of the five Items of the C1 scenario: all in batch 1, retry_count
0, not stalled. -/
def exampleC1Item (n : Nat) : QueueItem :=
  { id := n, receiver_account_id := "r", amount := n, memo := none,
    created_at := 0, updated_at := 0, retry_count := 0, error_message := none,
    batch_id := some 1, is_stalled := false, has_storage_deposit := true }

/-- The five Items of the C1 scenario, ids 1 to 5. -/
def exampleC1Items : List QueueItem :=
  [exampleC1Item 1, exampleC1Item 2, exampleC1Item 3, exampleC1Item 4, exampleC1Item 5]

/-- The store of the C1 scenario: the five Items attached to processing
batch 1. -/
def exampleC1Store : Store :=
  { queue := exampleC1Items,
    batch_transactions := [{ id := 1, tx_hash := "h", signed_tx := some "x",
                             status := QueueStatus.processing, created_at := 0,
                             updated_at := 0 }],
    next_queue_id := 6, next_batch_id := 2 }

/-- C1 counterexample: after an ActionError at index 2 over the five-Item
batch (all retry_count 0), sibling Item 1 ends with retry_count 1, not the
retry_count 0 the claim states. -/
theorem C1_counterexample :
    (getById (handleActionErrorIndexed exampleC1Store exampleC1Items 2 "kind" 1 5 9) 1).map
        QueueItem.retry_count = some 1 ∧
    ¬((getById (handleActionErrorIndexed exampleC1Store exampleC1Items 2 "kind" 1 5 9) 1).map
        QueueItem.retry_count = some 0) := by
  decide

/-- C1 witness: the amended behavior at the concrete five-Item scenario
with index 2 and maxRetries 5: Item at position 2 stalled with the error
text and retry_count 1, sibling at position 0 pending with retry_count 1,
batch row 1 deleted. -/
theorem C1_amended_action_error_witness :
    getById (handleActionErrorIndexed exampleC1Store exampleC1Items 2 "kind" 1 5 9)
        (exampleC1Items.get ⟨2, by decide⟩).id =
      some { exampleC1Items.get ⟨2, by decide⟩ with is_stalled := true,
                                                    error_message := some "kind",
                                                    batch_id := none,
                                                    retry_count := 1,
                                                    updated_at := 9 } ∧
    getById (handleActionErrorIndexed exampleC1Store exampleC1Items 2 "kind" 1 5 9)
        (exampleC1Items.get ⟨0, by decide⟩).id =
      some { exampleC1Items.get ⟨0, by decide⟩ with batch_id := none,
                                                    retry_count := 1,
                                                    updated_at := 9 } ∧
    List.find? (fun bt => bt.id == 1)
      (handleActionErrorIndexed exampleC1Store exampleC1Items 2 "kind" 1 5 9).batch_transactions = none :=
  have h := C1_amended_action_error exampleC1Store exampleC1Items 2 1 5 9 "kind"
    (by decide) (by decide) (by decide) (by decide)
  ⟨h.1, h.2.1 0 (by decide) (by decide), h.2.2⟩

/-- The C7 invariant over a trace of operations: every processing Batch
carries its signed blob, and every success Batch has a NULL blob and the
tx hash supplied by the markBatchSuccess call of the trace. -/
def BatchConsistent (ops : List QOp) (s : Store) : Prop :=
  ∀ bt ∈ s.batch_transactions,
    (bt.status = QueueStatus.processing → bt.signed_tx ≠ none) ∧
    (bt.status = QueueStatus.success → bt.signed_tx = none ∧
      ∃ now2, QOp.markBatchSuccess bt.id bt.tx_hash now2 ∈ ops)

lemma batchConsistent_of_eq (ops ops2 : List QOp) (s s2 : Store)
    (hbt : s2.batch_transactions = s.batch_transactions)
    (hsub : ∀ o ∈ ops, o ∈ ops2)
    (h : BatchConsistent ops s) : BatchConsistent ops2 s2 := by
  intro bt hmem
  rw [hbt] at hmem
  obtain ⟨h1, h2⟩ := h bt hmem
  refine ⟨h1, fun hs => ⟨(h2 hs).1, ?_⟩⟩
  obtain ⟨n2, hn2⟩ := (h2 hs).2
  exact ⟨n2, hsub _ hn2⟩

lemma push_batch_transactions (opts : QueueOptions) (s : Store) (t : TransferRequest)
    (now : Nat) : (push opts s t now).1.batch_transactions = s.batch_transactions := by
  unfold push
  by_cases hm : opts.mergeExistingAccounts = true
  · rw [hm]
    simp only [if_true]
    split <;> rfl
  · have hm2 : opts.mergeExistingAccounts = false := by simpa using hm
    rw [hm2]
    simp only [Bool.false_eq_true, if_false]
    rfl

lemma unstallItem_batch_transactions (s : Store) (itemId now : Nat) :
    (unstallItem s itemId now).1.batch_transactions = s.batch_transactions := by
  unfold unstallItem
  split
  · rfl
  · split <;> rfl

lemma batchConsistent_step (opts : QueueOptions) (ops : List QOp) (s : Store) (op : QOp)
    (h : BatchConsistent ops s) : BatchConsistent (ops ++ [op]) (applyOp opts s op) := by
  have hsub : ∀ o ∈ ops, o ∈ ops ++ [op] := fun o ho => List.mem_append_left _ ho
  cases op with
  | push r a mm hh now =>
      exact batchConsistent_of_eq ops _ s _ (push_batch_transactions opts s ⟨r, a, mm, hh⟩ now)
        hsub h
  | createSignedTransaction th tx ids now =>
      intro bt hmem
      have hbt : (applyOp opts s (QOp.createSignedTransaction th tx ids now)).batch_transactions = s.batch_transactions ++
            [{ id := s.next_batch_id, tx_hash := th, signed_tx := some tx,
               status := QueueStatus.processing, created_at := now,
               updated_at := now }] := rfl
      rw [hbt] at hmem
      rcases List.mem_append.mp hmem with hold | hnew
      · obtain ⟨h1, h2⟩ := h bt hold
        refine ⟨h1, fun hs => ⟨(h2 hs).1, ?_⟩⟩
        obtain ⟨n2, hn2⟩ := (h2 hs).2
        exact ⟨n2, hsub _ hn2⟩
      · rw [List.mem_singleton] at hnew
        subst hnew
        refine ⟨fun _ => by simp, fun hs => ?_⟩
        cases hs
  | markBatchSuccess bb hh now =>
      intro bt2 hmem
      have hbt : (applyOp opts s (QOp.markBatchSuccess bb hh now)).batch_transactions =
          s.batch_transactions.map (fun bt =>
            if bt.id == bb then
              { bt with status := QueueStatus.success, tx_hash := hh,
                        signed_tx := none, updated_at := now }
            else bt) := rfl
      rw [hbt] at hmem
      obtain ⟨bt, hbtmem, rfl⟩ := List.mem_map.mp hmem
      by_cases hid : (bt.id == bb) = true
      · have hbid : bt.id = bb := by simpa using hid
        rw [hid]
        simp only [if_true]
        refine ⟨?_, ?_⟩
        · intro hp
          cases hp
        · intro _
          refine ⟨by simp, now, ?_⟩
          rw [hbid]
          exact List.mem_append_right _ (List.mem_singleton.mpr rfl)
      · have hid2 : (bt.id == bb) = false := by simpa using hid
        rw [hid2]
        simp only [Bool.false_eq_true, if_false]
        obtain ⟨h1, h2⟩ := h bt hbtmem
        refine ⟨h1, fun hs => ⟨(h2 hs).1, ?_⟩⟩
        obtain ⟨n2, hn2⟩ := (h2 hs).2
        exact ⟨n2, hsub _ hn2⟩
  | recoverFailedBatch bb em mr now =>
      intro bt hmem
      have hbt := recoverFailedBatch_batch_transactions s bb em mr now
      rw [show applyOp opts s (QOp.recoverFailedBatch bb em mr now) =
        recoverFailedBatch s bb em mr now from rfl, hbt] at hmem
      obtain ⟨h1, h2⟩ := h bt (List.mem_of_mem_filter hmem)
      refine ⟨h1, fun hs => ⟨(h2 hs).1, ?_⟩⟩
      obtain ⟨n2, hn2⟩ := (h2 hs).2
      exact ⟨n2, hsub _ hn2⟩
  | markItemStalled iid em now =>
      exact batchConsistent_of_eq ops _ s _ rfl hsub h
  | unstallItem iid now =>
      exact batchConsistent_of_eq ops _ s _ (unstallItem_batch_transactions s iid now) hsub h
  | recover now =>
      intro bt hmem
      have hbt : (applyOp opts s (QOp.recover now)).batch_transactions =
          s.batch_transactions.filter (fun bt => bt.status == QueueStatus.success) := rfl
      rw [hbt] at hmem
      obtain ⟨h1, h2⟩ := h bt (List.mem_of_mem_filter hmem)
      refine ⟨h1, fun hs => ⟨(h2 hs).1, ?_⟩⟩
      obtain ⟨n2, hn2⟩ := (h2 hs).2
      exact ⟨n2, hsub _ hn2⟩

lemma batchConsistent_run (opts : QueueOptions) :
    ∀ (ops pre : List QOp) (s : Store),
      BatchConsistent pre s → BatchConsistent (pre ++ ops) (applyOps opts s ops) := by
  intro ops
  induction ops with
  | nil =>
      intro pre s h
      simpa [applyOps] using h
  | cons op rest ih =>
      intro pre s h
      have h2 := batchConsistent_step opts pre s op h
      have h3 := ih (pre ++ [op]) (applyOp opts s op) h2
      have heq : (pre ++ [op]) ++ rest = pre ++ op :: rest := by
        simp
      rw [heq] at h3
      simpa [applyOps] using h3

/-- C7: after any sequence of queue operations starting from the empty
store, every Batch row with status processing has a non-null signed_tx,
and every Batch row with status success has signed_tx NULL and carries the
tx hash supplied by a markBatchSuccess call of the sequence. -/
theorem C7_batch_blob_invariant (opts : QueueOptions) (ops : List QOp) :
    ∀ bt ∈ (applyOps opts initialStore ops).batch_transactions,
      (bt.status = QueueStatus.processing → bt.signed_tx ≠ none) ∧
      (bt.status = QueueStatus.success → bt.signed_tx = none ∧
        ∃ now2, QOp.markBatchSuccess bt.id bt.tx_hash now2 ∈ ops) := by
  have h := batchConsistent_run opts ops [] initialStore (by intro bt hbt; cases hbt)
  simpa [BatchConsistent] using h

/-- A trace that enqueues one Item, attaches it to a signed batch, and
marks the batch successful with the chain hash. -/
def exampleC7Ops : List QOp :=
  [QOp.push "alice" 5 none none 1,
   QOp.createSignedTransaction "hash0" "blob0" [1] 2,
   QOp.markBatchSuccess 1 "chainhash" 3]

/-- C7 witness: at the end of the concrete trace the success Batch row has
a NULL blob and the chain-supplied hash. -/
theorem C7_batch_blob_invariant_witness :
    ({ id := 1, tx_hash := "chainhash", signed_tx := none,
       status := QueueStatus.success, created_at := 2, updated_at := 3 } : BatchTx) ∈
      (applyOps exampleOpts initialStore exampleC7Ops).batch_transactions ∧
    (({ id := 1, tx_hash := "chainhash", signed_tx := none,
        status := QueueStatus.success, created_at := 2,
        updated_at := 3 } : BatchTx).status = QueueStatus.success →
      ({ id := 1, tx_hash := "chainhash", signed_tx := none,
         status := QueueStatus.success, created_at := 2,
         updated_at := 3 } : BatchTx).signed_tx = none ∧
      ∃ now2, QOp.markBatchSuccess 1 "chainhash" now2 ∈ exampleC7Ops) :=
  ⟨by decide,
    (C7_batch_blob_invariant exampleOpts exampleC7Ops
      { id := 1, tx_hash := "chainhash", signed_tx := none,
        status := QueueStatus.success, created_at := 2, updated_at := 3 }
      (by decide)).2⟩

end NearFT
